import Mathlib

/-!
Shallow embedding of the log-monitoring agent
(`agent_with_sql_outbox.py` and `minimal_tail_agent.py`).

The local SQLite outbox is modelled as a list of records plus an
auto-increment counter; MongoDB interactions are modelled by passing the
outcome of the `insert_many` call (and, for the bulk-write-error branch,
the set of event ids the reconciliation `find` query reports) as an
explicit parameter, exactly mirroring what the Python functions observe.
Raised exceptions are modelled with `Except`.
-/

namespace Agent

/-- A classified log event, as built by `parse_log_line`.  The freshly
generated uuid and the current timestamp are environment inputs and are
therefore parameters of the embedding. -/
structure LogEntry where
  event_id : String
  timestamp : String
  message : List Char
  severity : List Char
deriving Repr, DecidableEq

/-- One row of the SQLite `outbox` table of `agent_with_sql_outbox.py`:
`id INTEGER PRIMARY KEY AUTOINCREMENT, event_id TEXT UNIQUE, timestamp,
message, severity, sent INTEGER DEFAULT 0`. -/
structure Record where
  id : Nat
  event_id : String
  timestamp : String
  message : List Char
  severity : List Char
  sent : Bool
deriving Repr, DecidableEq

/-- The state of the SQLite outbox: the rows plus the auto-increment
counter used for the next `id`. -/
structure Store where
  nextId : Nat
  rows : List Record
deriving Repr, DecidableEq

/-- Result of `persist_log`: the row was inserted, or the UNIQUE
constraint on `event_id` fired (`sqlite3.IntegrityError`, caught and
logged by the code, never re-raised). -/
inductive PersistResult where
  | inserted
  | alreadyExists
deriving Repr, DecidableEq

/-- `persist_log(conn, log_entry)`: `INSERT INTO outbox (event_id,
timestamp, message, severity, sent) VALUES (?, ?, ?, ?, 0)`.  The UNIQUE
index on `event_id` rejects the insert when the id is already present;
the code catches the resulting `IntegrityError` and only logs it. -/
def persist_log (s : Store) (e : LogEntry) : Store × PersistResult :=
  if s.rows.any (fun r => r.event_id == e.event_id) then
    (s, .alreadyExists)
  else
    ({ nextId := s.nextId + 1,
       rows := s.rows ++ [{ id := s.nextId, event_id := e.event_id,
                            timestamp := e.timestamp, message := e.message,
                            severity := e.severity, sent := false }] },
     .inserted)

/-- The `ORDER BY id ASC` order of `fetch_unsent`. -/
def recLE (a b : Record) : Prop := a.id ≤ b.id

instance : DecidableRel recLE := fun a b => Nat.decLe a.id b.id

instance : IsTotal Record recLE := ⟨fun a b => Nat.le_total a.id b.id⟩

instance : IsTrans Record recLE := ⟨fun _ _ _ h1 h2 => Nat.le_trans h1 h2⟩

/-- `fetch_unsent(conn, limit)`: `SELECT event_id, timestamp, message,
severity FROM outbox WHERE sent = 0 ORDER BY id ASC LIMIT ?`.  A pure
read: it returns rows and modifies nothing. -/
def fetch_unsent (s : Store) (limit : Nat) : List Record :=
  (List.insertionSort recLE (s.rows.filter fun r => !r.sent)).take limit

/-- `mark_sent(conn, event_ids)`: early-returns on an empty list,
otherwise `UPDATE outbox SET sent = 1 WHERE event_id IN (...)`. -/
def mark_sent (s : Store) (eids : List String) : Store :=
  if eids = [] then s
  else
    { s with rows := s.rows.map fun r =>
        if r.event_id ∈ eids then { r with sent := true } else r }

/-- A document sent to the MongoDB collection by `flush_outbox`. -/
structure Doc where
  event_id : String
  timestamp : String
  message : List Char
  severity : List Char
  captured_at : String
deriving Repr, DecidableEq

/-- What `send_batch_to_mongo` observes of its `coll.insert_many(docs,
ordered=False)` call: clean success, a `BulkWriteError` (in which case
the code issues a `find` query whose answer — the event ids now present
remotely — is the `found` field), or any other exception. -/
inductive InsertManyOutcome where
  | success
  | bulkWriteError (found : List String)
  | otherError
deriving Repr, DecidableEq

/-- `send_batch_to_mongo(coll, docs)`: empty batch short-circuits to
`([], [])`; full success returns every event id as succeeded; on
`BulkWriteError` the batch ids are reconciled against the `find` result;
any other exception is re-raised (`Except.error`). -/
def send_batch_to_mongo (docs : List Doc) (outcome : InsertManyOutcome) :
    Except Unit (List String × List String) :=
  if docs = [] then .ok ([], [])
  else
    match outcome with
    | .success => .ok (docs.map (·.event_id), [])
    | .bulkWriteError found =>
        let event_ids := docs.map (·.event_id)
        .ok (event_ids.filter (fun e => found.contains e),
             event_ids.filter (fun e => !(found.contains e)))
    | .otherError => .error ()

/-- The documents `flush_outbox` builds from the fetched rows; the
`captured_at` timestamp (`now_iso()`) is a parameter. -/
def build_docs (rows : List Record) (cap : String) : List Doc :=
  rows.map fun r =>
    { event_id := r.event_id, timestamp := r.timestamp,
      message := r.message, severity := r.severity, captured_at := cap }

/-- `flush_outbox(conn, mongo_coll)`: fetch a batch, return if empty,
send it, mark the succeeded ids sent; failed ids are only printed and
left untouched; an exception from the send is printed and re-raised. -/
def flush_outbox (s : Store) (outcome : InsertManyOutcome)
    (batchSize : Nat) (cap : String) : Except Unit Store :=
  let rows := fetch_unsent s batchSize
  if rows = [] then .ok s
  else
    match send_batch_to_mongo (build_docs rows cap) outcome with
    | .error e => .error e
    | .ok (succeeded, _failed) =>
        .ok (if succeeded = [] then s else mark_sent s succeeded)

/-- Python substring containment `needle in hay` on char sequences. -/
def occursIn (needle hay : List Char) : Bool :=
  match hay with
  | [] => needle.isEmpty
  | _ :: t => needle.isPrefixOf hay || occursIn needle t

/-- The ordered severity keyword list of `parse_log_line`. -/
def severityLevels : List (List Char) :=
  ["CRITICAL".toList, "FATAL".toList, "ERROR".toList,
   "WARNING".toList, "WARN".toList]

/-- Python `line.rstrip("\n")`: drop every trailing newline char. -/
def rstripNL (l : List Char) : List Char :=
  (l.reverse.dropWhile (fun c => c == '\n')).reverse

/-- The severity scan of `parse_log_line`: uppercase the line, then take
the first keyword of `severityLevels` occurring as a substring,
defaulting to `INFO`. -/
def classify_severity (l : List Char) : List Char :=
  match severityLevels.find? (fun lvl => occursIn lvl (l.map Char.toUpper)) with
  | some lvl => lvl
  | none => "INFO".toList

/-- `parse_log_line(line)`: strip trailing newlines, return `None` on an
empty result, otherwise build the event (uuid and timestamp are
environment parameters). -/
def parse_log_line (eid ts : String) (line : List Char) : Option LogEntry :=
  if rstripNL line = [] then none
  else some { event_id := eid, timestamp := ts, message := rstripNL line,
              severity := classify_severity (rstripNL line) }

/-- Python `fileobj.readline()` on a text file: everything from `pos` up
to and including the next newline, or up to end of file when no newline
follows (the partial trailing fragment is returned, not withheld). -/
def readline (content : List Char) (pos : Nat) : List Char × Nat :=
  let rest := content.drop pos
  match rest.findIdx? (fun c => c == '\n') with
  | some i => (rest.take (i + 1), pos + i + 1)
  | none => (rest, pos + rest.length)

/-- One iteration of the `follow(fileobj)` loop: `readline`; an empty
result means sleep and poll again (nothing yielded, position kept),
a non-empty result is yielded to the caller. -/
def follow_step (content : List Char) (pos : Nat) :
    Option (List Char) × Nat :=
  if (readline content pos).1 = [] then (none, pos)
  else (some (readline content pos).1, (readline content pos).2)

/-- One row of the `outbox` table of `minimal_tail_agent.py`:
`id INTEGER PRIMARY KEY AUTOINCREMENT, timestamp, filename, line,
sent INTEGER DEFAULT 0`. -/
structure MatchRow where
  id : Nat
  timestamp : String
  filename : String
  line : List Char
  sent : Bool
deriving Repr, DecidableEq

/-- The state of the minimal tail agent's outbox database. -/
structure MatchStore where
  nextId : Nat
  rows : List MatchRow
deriving Repr, DecidableEq

/-- `persist_match(filename, line)` of `minimal_tail_agent.py`: keep only
the first 4000 chars of the line (`line[:4000]`) and `INSERT INTO outbox
(timestamp, filename, line) VALUES (?, ?, ?)`; `sent` defaults to 0. -/
def persist_match (s : MatchStore) (ts filename : String)
    (line : List Char) : MatchStore :=
  { nextId := s.nextId + 1,
    rows := s.rows ++ [{ id := s.nextId, timestamp := ts,
                         filename := filename, line := line.take 4000,
                         sent := false }] }

/-! Invariants of the outbox store. -/

/-- `event_id` is unique across the rows of the outbox (the SQLite
UNIQUE index). -/
def UniqueEids (s : Store) : Prop := (s.rows.map (·.event_id)).Nodup

/-- Between two store states, no `sent` flag goes back from true to
false: every already-sent row keeps a sent row with its event id. -/
def SentMono (s s2 : Store) : Prop :=
  ∀ r ∈ s.rows, r.sent = true →
    ∃ r2 ∈ s2.rows, r2.event_id = r.event_id ∧ r2.sent = true

theorem nodup_map_filter_eq_one {l : List Record} {a : String}
    (hn : (l.map (·.event_id)).Nodup) (ha : a ∈ l.map (·.event_id)) :
    (l.filter (fun r => r.event_id == a)).length = 1 := by
  induction l with
  | nil => simp at ha
  | cons r t ih =>
    simp only [List.map_cons, List.nodup_cons] at hn
    rcases List.mem_cons.mp ha with h | h
    · replace h : a = r.event_id := h
      subst h
      have hfil : t.filter (fun x => x.event_id == r.event_id) = [] := by
        rw [List.filter_eq_nil_iff]
        intro x hx hbeq
        have hm : x.event_id ∈ List.map (fun y : Record => y.event_id) t :=
          List.mem_map_of_mem (fun y : Record => y.event_id) hx
        rw [beq_iff_eq.mp hbeq] at hm
        exact hn.1 hm
      simp [List.filter_cons, hfil]
    · have hne : ¬(r.event_id == a) = true := by
        intro hbeq
        apply hn.1
        rw [beq_iff_eq.mp hbeq]
        exact h
      simp only [List.filter_cons, hne, if_neg]
      simpa using ih hn.2 h

theorem eq_of_mem_of_uniq {s : Store} {r r2 : Record}
    (hu : UniqueEids s) (h1 : r ∈ s.rows) (h2 : r2 ∈ s.rows)
    (he : r.event_id = r2.event_id) : r = r2 :=
  List.inj_on_of_nodup_map hu h1 h2 he

/-- C2: appending an event with an id already in the outbox leaves the
store unchanged (in particular exactly one row carries that id) and
reports `alreadyExists` without raising; appending a fresh id inserts
exactly one new row with `sent = false`. -/
theorem persist_log_idempotent (s : Store) (e : LogEntry)
    (hu : UniqueEids s) :
    (e.event_id ∈ s.rows.map (·.event_id) →
      persist_log s e = (s, .alreadyExists) ∧
      (((persist_log s e).1.rows.filter
          (fun r => r.event_id == e.event_id)).length = 1)) ∧
    (e.event_id ∉ s.rows.map (·.event_id) →
      (persist_log s e).2 = .inserted ∧
      (persist_log s e).1.rows =
        s.rows ++ [{ id := s.nextId, event_id := e.event_id,
                     timestamp := e.timestamp, message := e.message,
                     severity := e.severity, sent := false }]) := by
  constructor
  · intro hmem
    have hany : s.rows.any (fun r => r.event_id == e.event_id) = true := by
      rcases List.mem_map.mp hmem with ⟨r, hr, hre⟩
      exact List.any_eq_true.mpr ⟨r, hr, beq_iff_eq.mpr hre⟩
    constructor
    · simp [persist_log, hany]
    · simp only [persist_log, hany, if_pos]
      exact nodup_map_filter_eq_one hu hmem
  · intro hmem
    have hany : s.rows.any (fun r => r.event_id == e.event_id) = false := by
      rw [List.any_eq_false]
      intro r hr hbeq
      exact hmem (beq_iff_eq.mp hbeq ▸ List.mem_map_of_mem _ hr)
    constructor
    · simp [persist_log, hany]
    · simp [persist_log, hany]

/-- A small concrete store used by the closed witnesses. -/
def demoRow : Record :=
  { id := 1, event_id := "a", timestamp := "t", message := "m".toList,
    severity := "INFO".toList, sent := false }

/-- A small concrete store used by the closed witnesses. -/
def demoStore : Store := { nextId := 2, rows := [demoRow] }

/-- A concrete event whose id collides with `demoRow`. -/
def demoEntry : LogEntry :=
  { event_id := "a", timestamp := "t2", message := "n".toList,
    severity := "INFO".toList }

/-- Closed witness for `persist_log_idempotent`. -/
theorem persist_log_idempotent_witness :
    persist_log demoStore demoEntry = (demoStore, PersistResult.alreadyExists) :=
  ((persist_log_idempotent demoStore demoEntry
      (show (demoStore.rows.map (·.event_id)).Nodup by decide)).1
    (by decide)).1

/-- C10: `persist_match` of the minimal tail agent appends exactly one
row holding the first 4000 chars of the matched line (dropping the rest
silently) and the unmodified filename; a line of at most 4000 chars is
stored whole. -/
theorem persist_match_truncates (s : MatchStore) (ts fn : String)
    (line : List Char) :
    (persist_match s ts fn line).rows =
      s.rows ++ [{ id := s.nextId, timestamp := ts, filename := fn,
                   line := line.take 4000, sent := false }] ∧
    (line.length ≤ 4000 →
      (persist_match s ts fn line).rows =
        s.rows ++ [{ id := s.nextId, timestamp := ts, filename := fn,
                     line := line, sent := false }]) := by
  refine ⟨rfl, fun h => ?_⟩
  simp [persist_match, List.take_of_length_le h]

/-- Closed witness for `persist_match_truncates`. -/
theorem persist_match_truncates_witness :
    (persist_match { nextId := 1, rows := [] } "t" "f" "hi".toList).rows =
      [{ id := 1, timestamp := "t", filename := "f",
         line := "hi".toList, sent := false }] := by
  have h := (persist_match_truncates { nextId := 1, rows := [] }
    "t" "f" "hi".toList).2 (by decide)
  simpa using h

/-- C6 counterexample: a line containing `WARN` but not `WARNING`
produces an event whose severity is `WARN`, which is outside the
claimed enumeration CRITICAL/FATAL/ERROR/WARNING/INFO. -/
theorem severity_enum_counterexample :
    parse_log_line "u1" "t1" "WARN disk low".toList =
      some { event_id := "u1", timestamp := "t1",
             message := "WARN disk low".toList,
             severity := "WARN".toList } ∧
    "WARN".toList ∉ ["CRITICAL".toList, "FATAL".toList, "ERROR".toList,
                     "WARNING".toList, "INFO".toList] := by
  decide

/-- C6 amended: every severity produced by the classifier lies in the
enumeration extended with `WARN`, i.e. in
CRITICAL/FATAL/ERROR/WARNING/WARN/INFO. -/
theorem classify_severity_cases (l : List Char) :
    classify_severity l = "INFO".toList ∨
      classify_severity l ∈ severityLevels := by
  unfold classify_severity
  rcases hf : severityLevels.find?
      (fun lvl => occursIn lvl (l.map Char.toUpper)) with _ | lvl
  · exact Or.inl rfl
  · exact Or.inr (List.mem_of_find?_eq_some hf)

theorem severity_in_extended_enum (eid ts : String) (line : List Char)
    (e : LogEntry) (h : parse_log_line eid ts line = some e) :
    e.severity ∈ ["CRITICAL".toList, "FATAL".toList, "ERROR".toList,
                  "WARNING".toList, "WARN".toList, "INFO".toList] := by
  unfold parse_log_line at h
  by_cases hnil : rstripNL line = []
  · rw [if_pos hnil] at h
    exact absurd h (by simp)
  · rw [if_neg hnil] at h
    have hsev : e.severity = classify_severity (rstripNL line) := by
      have he := (Option.some_inj.mp h).symm
      rw [he]
    rw [hsev]
    rcases classify_severity_cases (rstripNL line) with hc | hc
    · rw [hc]; simp
    · simp only [severityLevels, List.mem_cons, List.not_mem_nil,
        or_false] at hc
      rcases hc with h | h | h | h | h <;> simp [h]

/-- Closed witness for `severity_in_extended_enum`. -/
theorem severity_in_extended_enum_witness :
    "INFO".toList ∈ ["CRITICAL".toList, "FATAL".toList, "ERROR".toList,
                     "WARNING".toList, "WARN".toList, "INFO".toList] :=
  severity_in_extended_enum "u1" "t1" "hello".toList
    { event_id := "u1", timestamp := "t1", message := "hello".toList,
      severity := "INFO".toList } (by decide)

/-- C9 counterexample: with the file ending in a fragment that carries no
newline, one `follow` iteration emits the whole fragment as a line (and
`parse_log_line` classifies it), instead of buffering it. -/
theorem unterminated_fragment_counterexample :
    follow_step "ERROR no newline".toList 0 =
      (some "ERROR no newline".toList, 16) ∧
    '\n' ∉ "ERROR no newline".toList ∧
    (parse_log_line "u2" "t2" "ERROR no newline".toList).isSome = true := by
  decide

/-- C9 amended: when the data from the current position to end of file
contains no newline, the `follow` loop emits that entire unterminated
fragment immediately as a line and advances to end of file; nothing is
buffered to await completion. -/
theorem unterminated_fragment_emitted (content : List Char) (pos : Nat)
    (hlt : pos < content.length) (hnl : '\n' ∉ content.drop pos) :
    follow_step content pos = (some (content.drop pos), content.length) := by
  have hfind : (content.drop pos).findIdx? (fun c => c == '\n') = none := by
    rw [List.findIdx?_eq_none_iff]
    intro x hx
    exact beq_eq_false_iff_ne.mpr (fun h => hnl (h ▸ hx))
  have hread : readline content pos = (content.drop pos, content.length) := by
    simp only [readline, hfind]
    rw [List.length_drop]
    have harith : pos + (content.length - pos) = content.length := by omega
    rw [harith]
  have hne : content.drop pos ≠ [] := by
    rw [ne_eq, List.drop_eq_nil_iff]
    omega
  simp [follow_step, hread, hne]

/-- Closed witness for `unterminated_fragment_emitted`. -/
theorem unterminated_fragment_emitted_witness :
    follow_step "abc".toList 0 = (some ("abc".toList.drop 0), 3) :=
  unterminated_fragment_emitted "abc".toList 0 (by decide) (by decide)

/-- A concrete document for the closed witnesses. -/
def demoDoc : Doc :=
  { event_id := "a", timestamp := "t", message := "m".toList,
    severity := "INFO".toList, captured_at := "c" }

/-- C1: on a non-empty batch, `send_batch_to_mongo` either reports full
success (every batch id succeeded, none failed), or — on a bulk-write
error — partitions the batch ids by the reconciliation query (exactly
the ids the query finds are succeeded, the remainder failed), or
re-raises any other error. -/
theorem send_batch_partition_or_raises (docs : List Doc) (hne : docs ≠ []) :
    send_batch_to_mongo docs .success = .ok (docs.map (·.event_id), []) ∧
    send_batch_to_mongo docs .otherError = .error () ∧
    ∀ found succ fl,
      send_batch_to_mongo docs (.bulkWriteError found) = .ok (succ, fl) →
        (∀ e, e ∈ succ ↔ e ∈ docs.map (·.event_id) ∧ e ∈ found) ∧
        (∀ e, e ∈ fl ↔ e ∈ docs.map (·.event_id) ∧ e ∉ found) ∧
        (succ ++ fl).Perm (docs.map (·.event_id)) := by
  refine ⟨by simp [send_batch_to_mongo, hne],
          by simp [send_batch_to_mongo, hne], ?_⟩
  intro found succ fl h
  unfold send_batch_to_mongo at h
  rw [if_neg hne] at h
  injection h with h
  injection h with h1 h2
  subst h1
  subst h2
  refine ⟨fun e => ?_, fun e => ?_, ?_⟩
  · simp [List.mem_filter]
  · simp [List.mem_filter]
  · exact List.filter_append_perm _ _

/-- Closed witness for `send_batch_partition_or_raises`. -/
theorem send_batch_partition_or_raises_witness :
    send_batch_to_mongo [demoDoc] .success =
      .ok (List.map (·.event_id) [demoDoc], []) :=
  (send_batch_partition_or_raises [demoDoc] (by decide)).1

/-- The event ids of the rows are untouched by `mark_sent`. -/
theorem mark_sent_eid_map (s : Store) (eids : List String) :
    (mark_sent s eids).rows.map (·.event_id) = s.rows.map (·.event_id) := by
  unfold mark_sent
  by_cases h : eids = []
  · simp [h]
  · simp only [h, if_neg, not_false_iff]
    rw [List.map_map]
    apply List.map_congr_left
    intro r _
    by_cases hm : r.event_id ∈ eids <;> simp [hm]

/-- The image of a row under `mark_sent` is a row of the new store. -/
theorem mem_mark_sent (s : Store) (eids : List String) {r : Record}
    (hr : r ∈ s.rows) :
    (if r.event_id ∈ eids then { r with sent := true } else r) ∈
      (mark_sent s eids).rows := by
  unfold mark_sent
  by_cases h : eids = []
  · subst h
    simpa using hr
  · simp only [h, if_neg, not_false_iff]
    exact List.mem_map_of_mem _ hr

/-- `mark_sent` preserves uniqueness of event ids. -/
theorem uniq_mark_sent (s : Store) (eids : List String)
    (hu : UniqueEids s) : UniqueEids (mark_sent s eids) := by
  unfold UniqueEids
  rw [mark_sent_eid_map]
  exact hu

/-- `mark_sent` never resets a sent flag. -/
theorem mono_mark_sent (s : Store) (eids : List String) :
    SentMono s (mark_sent s eids) := by
  intro r hr hs
  refine ⟨if r.event_id ∈ eids then { r with sent := true } else r,
          mem_mark_sent s eids hr, ?_, ?_⟩
  · by_cases hm : r.event_id ∈ eids <;> simp [hm]
  · by_cases hm : r.event_id ∈ eids <;> simp [hm, hs]

/-- `persist_log` preserves uniqueness of event ids. -/
theorem uniq_persist_log (s : Store) (e : LogEntry)
    (hu : UniqueEids s) : UniqueEids (persist_log s e).1 := by
  unfold persist_log
  cases hany : s.rows.any (fun r => r.event_id == e.event_id) with
  | true => simpa using hu
  | false =>
    simp only [Bool.false_eq_true, if_neg, not_false_iff]
    unfold UniqueEids
    rw [List.map_append, List.nodup_append]
    refine ⟨hu, List.nodup_singleton _, ?_⟩
    intro a ha hb
    simp only [List.map_cons, List.map_nil, List.mem_singleton] at hb
    subst hb
    rw [List.any_eq_false] at hany
    rcases List.mem_map.mp ha with ⟨r, hr, hre⟩
    exact hany r hr (beq_iff_eq.mpr hre)

/-- `persist_log` never resets a sent flag. -/
theorem mono_persist_log (s : Store) (e : LogEntry) :
    SentMono s (persist_log s e).1 := by
  intro r hr hs
  unfold persist_log
  cases hany : s.rows.any (fun r => r.event_id == e.event_id) with
  | true => exact ⟨r, by simpa using hr, rfl, hs⟩
  | false =>
    refine ⟨r, ?_, rfl, hs⟩
    simp only [Bool.false_eq_true, if_neg, not_false_iff]
    exact List.mem_append_left _ hr

/-- A fetched row is a row of the store and is unsent. -/
theorem mem_fetch_unsent {s : Store} {n : Nat} {r : Record}
    (h : r ∈ fetch_unsent s n) : r ∈ s.rows ∧ r.sent = false := by
  unfold fetch_unsent at h
  have h1 : r ∈ List.insertionSort recLE (s.rows.filter fun x => !x.sent) :=
    List.mem_of_mem_take h
  have h2 : r ∈ s.rows.filter (fun x => !x.sent) :=
    (List.perm_insertionSort recLE _).mem_iff.mp h1
  have h3 := List.mem_filter.mp h2
  exact ⟨h3.1, by simpa using h3.2⟩

/-- A successful `flush_outbox` leaves the store as it was or applies a
single `mark_sent`. -/
theorem flush_outbox_cases (s : Store) (outcome : InsertManyOutcome)
    (bs : Nat) (cap : String) (s2 : Store)
    (h : flush_outbox s outcome bs cap = .ok s2) :
    s2 = s ∨ ∃ eids, s2 = mark_sent s eids := by
  unfold flush_outbox at h
  by_cases hrows : fetch_unsent s bs = []
  · rw [if_pos hrows] at h
    injection h with h
    exact Or.inl h.symm
  · rw [if_neg hrows] at h
    cases hsend : send_batch_to_mongo (build_docs (fetch_unsent s bs) cap)
        outcome with
    | error err =>
      rw [hsend] at h
      exact absurd h (by simp)
    | ok p =>
      obtain ⟨succ, fl⟩ := p
      rw [hsend] at h
      injection h with h
      by_cases hsucc : succ = []
      · rw [if_pos hsucc] at h
        exact Or.inl h.symm
      · rw [if_neg hsucc] at h
        exact Or.inr ⟨succ, h.symm⟩

/-- C3: on any store with unique event ids, each of the four store
operations preserves uniqueness of `event_id`, never sends a sent flag
back from true to false, and `fetch_unsent` reads rows without
modification. -/
theorem store_ops_preserve_invariants (s : Store) (hu : UniqueEids s) :
    (∀ e : LogEntry,
      UniqueEids (persist_log s e).1 ∧ SentMono s (persist_log s e).1) ∧
    (∀ eids : List String,
      UniqueEids (mark_sent s eids) ∧ SentMono s (mark_sent s eids)) ∧
    (∀ limit : Nat, ∀ r ∈ fetch_unsent s limit, r ∈ s.rows) ∧
    (∀ (outcome : InsertManyOutcome) (bs : Nat) (cap : String) (s2 : Store),
      flush_outbox s outcome bs cap = .ok s2 →
        UniqueEids s2 ∧ SentMono s s2) := by
  refine ⟨fun e => ⟨uniq_persist_log s e hu, mono_persist_log s e⟩,
          fun eids => ⟨uniq_mark_sent s eids hu, mono_mark_sent s eids⟩,
          fun limit r hr => (mem_fetch_unsent hr).1,
          fun outcome bs cap s2 h => ?_⟩
  rcases flush_outbox_cases s outcome bs cap s2 h with rfl | ⟨eids, rfl⟩
  · exact ⟨hu, fun r hr hs => ⟨r, hr, rfl, hs⟩⟩
  · exact ⟨uniq_mark_sent s eids hu, mono_mark_sent s eids⟩

/-- Closed witness for `store_ops_preserve_invariants`. -/
theorem store_ops_preserve_invariants_witness :
    UniqueEids (mark_sent demoStore ["a"]) ∧
      SentMono demoStore (mark_sent demoStore ["a"]) :=
  (store_ops_preserve_invariants demoStore
    (show (demoStore.rows.map (·.event_id)).Nodup by decide)).2.1 ["a"]

/-- C7: `fetch_unsent` returns at most `limit` rows, sorted by ascending
`id`, all of them unsent rows of the store; and any unsent row it leaves
out implies the result is full and every returned id is no larger than
the left-out row's id (the returned rows are the smallest-id unsent
rows).  The function is a pure read of the store. -/
theorem fetch_unsent_spec (s : Store) (limit : Nat) :
    (fetch_unsent s limit).length ≤ limit ∧
    List.Sorted recLE (fetch_unsent s limit) ∧
    (∀ r ∈ fetch_unsent s limit, r ∈ s.rows ∧ r.sent = false) ∧
    (∀ r ∈ s.rows, r.sent = false → r ∉ fetch_unsent s limit →
      (fetch_unsent s limit).length = limit ∧
      ∀ r2 ∈ fetch_unsent s limit, r2.id ≤ r.id) := by
  refine ⟨?_, ?_, fun r hr => mem_fetch_unsent hr, ?_⟩
  · rw [fetch_unsent, List.length_take]
    exact min_le_left _ _
  · exact List.Pairwise.sublist (List.take_sublist _ _)
      (List.sorted_insertionSort recLE _)
  · intro r hr hsent hnot
    have hsort := List.sorted_insertionSort recLE
      (s.rows.filter fun x => !x.sent)
    have hru : r ∈ List.insertionSort recLE (s.rows.filter fun x => !x.sent) :=
      (List.perm_insertionSort recLE _).mem_iff.mpr
        (List.mem_filter.mpr ⟨hr, by simp [hsent]⟩)
    have hsplit := List.take_append_drop limit
      (List.insertionSort recLE (s.rows.filter fun x => !x.sent))
    have hrd : r ∈ (List.insertionSort recLE
        (s.rows.filter fun x => !x.sent)).drop limit := by
      rcases List.mem_append.mp (by rw [hsplit]; exact hru) with h | h
      · exact absurd h hnot
      · exact h
    have hlt : limit < (List.insertionSort recLE
        (s.rows.filter fun x => !x.sent)).length := by
      by_contra hle
      push_neg at hle
      rw [List.drop_eq_nil_iff.mpr hle] at hrd
      exact absurd hrd (List.not_mem_nil r)
    constructor
    · rw [fetch_unsent, List.length_take]
      omega
    · intro r2 hr2
      have hpw : List.Pairwise recLE
          ((List.insertionSort recLE (s.rows.filter fun x => !x.sent)).take
              limit ++
            (List.insertionSort recLE
              (s.rows.filter fun x => !x.sent)).drop limit) := by
        rw [hsplit]
        exact hsort
      exact (List.pairwise_append.mp hpw).2.2 r2 hr2 r hrd

/-- A second unsent demo row, with a larger id than `demoRow`. -/
def demoRow2 : Record :=
  { id := 2, event_id := "b", timestamp := "t", message := "m".toList,
    severity := "INFO".toList, sent := false }

/-- A two-row demo store used by the closed witnesses. -/
def demoStore2 : Store := { nextId := 3, rows := [demoRow, demoRow2] }

/-- Closed witness for `fetch_unsent_spec`. -/
theorem fetch_unsent_spec_witness :
    (fetch_unsent demoStore2 1).length = 1 ∧
      ∀ r2 ∈ fetch_unsent demoStore2 1, r2.id ≤ demoRow2.id :=
  (fetch_unsent_spec demoStore2 1).2.2.2 demoRow2 (by decide) (by decide)
    (by decide)

/-- The documents built for a batch carry exactly the batch's ids. -/
theorem build_docs_eids (rows : List Record) (cap : String) :
    (build_docs rows cap).map (·.event_id) = rows.map (·.event_id) := by
  simp [build_docs, List.map_map, Function.comp]

/-- `mark_sent` keeps the number of rows. -/
theorem mark_sent_length (s : Store) (eids : List String) :
    (mark_sent s eids).rows.length = s.rows.length := by
  unfold mark_sent
  by_cases h : eids = [] <;> simp [h]

/-- A failed id reported by `send_batch_to_mongo` is not also succeeded,
and belongs to the batch. -/
theorem send_ok_failed (docs : List Doc) (outcome : InsertManyOutcome)
    (succ fl : List String)
    (h : send_batch_to_mongo docs outcome = .ok (succ, fl)) :
    (∀ e ∈ fl, e ∉ succ) ∧ (∀ e ∈ fl, e ∈ docs.map (·.event_id)) := by
  by_cases hd : docs = []
  · subst hd
    unfold send_batch_to_mongo at h
    rw [if_pos rfl] at h
    injection h with h
    injection h with h1 h2
    subst h1
    subst h2
    simp
  · unfold send_batch_to_mongo at h
    rw [if_neg hd] at h
    cases outcome with
    | success =>
      injection h with h
      injection h with h1 h2
      subst h1
      subst h2
      simp
    | bulkWriteError found =>
      injection h with h
      injection h with h1 h2
      subst h1
      subst h2
      constructor
      · intro e hef hes
        have h1 := (List.mem_filter.mp hef).2
        have h2 := (List.mem_filter.mp hes).2
        rw [Bool.not_eq_true'] at h1
        rw [h2] at h1
        exact absurd h1 (by simp)
      · intro e hef
        exact (List.mem_filter.mp hef).1
    | otherError => exact absurd h (by simp)

/-- A row of the store whose event id lies in the current batch is
unsent. -/
theorem sent_false_of_eid_in_batch {s : Store} {bs : Nat} {r : Record}
    (hu : UniqueEids s) (hr : r ∈ s.rows)
    (hin : r.event_id ∈ (fetch_unsent s bs).map (·.event_id)) :
    r.sent = false := by
  rcases List.mem_map.mp hin with ⟨r2, hr2, he⟩
  obtain ⟨hr2s, hr2f⟩ := mem_fetch_unsent hr2
  have heq : r = r2 := eq_of_mem_of_uniq hu hr hr2s he.symm
  rw [heq]
  exact hr2f

/-- C8: when `send_batch` returns a partition, every store row whose id
is in the failed set is left entirely unchanged by `flush_outbox` (it is
still a row of the new store and its sent flag is still false), only
rows with succeeded ids are updated, and no row is added or removed. -/
theorem flush_leaves_failed_untouched (s : Store)
    (outcome : InsertManyOutcome) (bs : Nat) (cap : String)
    (succ fl : List String) (s2 : Store) (hu : UniqueEids s)
    (hsend : send_batch_to_mongo (build_docs (fetch_unsent s bs) cap)
        outcome = .ok (succ, fl))
    (hflush : flush_outbox s outcome bs cap = .ok s2) :
    (∀ r ∈ s.rows, r.event_id ∈ fl → r ∈ s2.rows ∧ r.sent = false) ∧
    (∀ r ∈ s.rows, r.event_id ∉ succ → r ∈ s2.rows) ∧
    s2.rows.length = s.rows.length := by
  obtain ⟨hdisj, hsub⟩ := send_ok_failed _ _ _ _ hsend
  have hfl_batch : ∀ e ∈ fl, e ∈ (fetch_unsent s bs).map (·.event_id) := by
    intro e he
    have := hsub e he
    rwa [build_docs_eids] at this
  unfold flush_outbox at hflush
  by_cases hrows : fetch_unsent s bs = []
  · rw [if_pos hrows] at hflush
    injection hflush with h2
    subst h2
    have hfl : fl = [] := by
      unfold send_batch_to_mongo at hsend
      rw [hrows] at hsend
      simp only [build_docs, List.map_nil, if_pos] at hsend
      injection hsend with h
      injection h with h1 h2
      exact h2.symm
    subst hfl
    exact ⟨fun r _ hmem => absurd hmem (List.not_mem_nil _),
           fun r hr _ => hr, rfl⟩
  · rw [if_neg hrows] at hflush
    rw [hsend] at hflush
    injection hflush with h2
    have hkeep : ∀ r ∈ s.rows, r.event_id ∉ succ → r ∈ s2.rows := by
      intro r hr hni
      by_cases hsucc : succ = []
      · rw [if_pos hsucc] at h2
        rw [← h2]
        exact hr
      · rw [if_neg hsucc] at h2
        rw [← h2]
        have := mem_mark_sent s succ hr
        rwa [if_neg hni] at this
    refine ⟨fun r hr hmem => ?_, hkeep, ?_⟩
    · exact ⟨hkeep r hr (hdisj _ hmem),
             sent_false_of_eid_in_batch hu hr (hfl_batch _ hmem)⟩
    · by_cases hsucc : succ = []
      · rw [if_pos hsucc] at h2
        rw [← h2]
      · rw [if_neg hsucc] at h2
        rw [← h2]
        exact mark_sent_length s succ

/-- Closed witness for `flush_leaves_failed_untouched`. -/
theorem flush_leaves_failed_untouched_witness :
    demoRow ∈ demoStore.rows ∧ demoRow.sent = false :=
  (flush_leaves_failed_untouched demoStore (.bulkWriteError []) 5 "c"
      [] ["a"] demoStore
      (show (demoStore.rows.map (·.event_id)).Nodup by decide)
      (by rfl) (by rfl)).1 demoRow (by decide) (by decide)

/-- One row of the 12-event scenario. -/
def srow (i : Nat) (e : String) (b : Bool) : Record :=
  { id := i, event_id := e, timestamp := "t0", message := "m".toList,
    severity := "INFO".toList, sent := b }

/-- The scenario store: 12 pending events, none sent. -/
def scenario0 : Store :=
  { nextId := 13,
    rows := [srow 1 "e01" false, srow 2 "e02" false, srow 3 "e03" false,
             srow 4 "e04" false, srow 5 "e05" false, srow 6 "e06" false,
             srow 7 "e07" false, srow 8 "e08" false, srow 9 "e09" false,
             srow 10 "e10" false, srow 11 "e11" false, srow 12 "e12" false] }

/-- After the first flush: the five oldest events are sent. -/
def scenario1 : Store :=
  { nextId := 13,
    rows := [srow 1 "e01" true, srow 2 "e02" true, srow 3 "e03" true,
             srow 4 "e04" true, srow 5 "e05" true, srow 6 "e06" false,
             srow 7 "e07" false, srow 8 "e08" false, srow 9 "e09" false,
             srow 10 "e10" false, srow 11 "e11" false, srow 12 "e12" false] }

/-- After the second flush: ten events sent. -/
def scenario2 : Store :=
  { nextId := 13,
    rows := [srow 1 "e01" true, srow 2 "e02" true, srow 3 "e03" true,
             srow 4 "e04" true, srow 5 "e05" true, srow 6 "e06" true,
             srow 7 "e07" true, srow 8 "e08" true, srow 9 "e09" true,
             srow 10 "e10" true, srow 11 "e11" false, srow 12 "e12" false] }

/-- After the third flush: all twelve events sent. -/
def scenario3 : Store :=
  { nextId := 13,
    rows := [srow 1 "e01" true, srow 2 "e02" true, srow 3 "e03" true,
             srow 4 "e04" true, srow 5 "e05" true, srow 6 "e06" true,
             srow 7 "e07" true, srow 8 "e08" true, srow 9 "e09" true,
             srow 10 "e10" true, srow 11 "e11" true, srow 12 "e12" true] }

/-- C4: starting from 12 unsent events with batch size 5 and a remote
store accepting every insert, three flush calls drain batches of sizes
5, 5 and 2; afterwards every record is sent and exactly the 12 distinct
event ids were delivered. -/
theorem twelve_event_drain_scenario :
    (fetch_unsent scenario0 5).length = 5 ∧
    flush_outbox scenario0 .success 5 "c1" = .ok scenario1 ∧
    (fetch_unsent scenario1 5).length = 5 ∧
    flush_outbox scenario1 .success 5 "c2" = .ok scenario2 ∧
    (fetch_unsent scenario2 5).length = 2 ∧
    flush_outbox scenario2 .success 5 "c3" = .ok scenario3 ∧
    (∀ r ∈ scenario3.rows, r.sent = true) ∧
    ((build_docs (fetch_unsent scenario0 5) "c1" ++
        build_docs (fetch_unsent scenario1 5) "c2" ++
        build_docs (fetch_unsent scenario2 5) "c3").map (·.event_id) =
      scenario0.rows.map (·.event_id)) ∧
    (scenario0.rows.map (·.event_id)).length = 12 ∧
    (scenario0.rows.map (·.event_id)).Nodup := by
  refine ⟨by decide, by rfl, by decide, by rfl, by decide, by rfl,
          by decide, by decide, by decide, by decide⟩

/-- Closed witness for `twelve_event_drain_scenario`. -/
theorem twelve_event_drain_scenario_witness :
    (srow 1 "e01" true).sent = true :=
  twelve_event_drain_scenario.2.2.2.2.2.2.1 (srow 1 "e01" true) (by decide)

/-- The Boolean containment check agrees with the substring (infix)
relation. -/
theorem occursIn_iff (needle hay : List Char) :
    occursIn needle hay = true ↔ needle <:+: hay := by
  induction hay with
  | nil =>
    unfold occursIn
    rw [List.isEmpty_iff, List.infix_nil]
  | cons a t ih =>
    unfold occursIn
    rw [Bool.or_eq_true, List.isPrefixOf_iff_prefix, ih,
      List.infix_cons_iff]

/-- `find?` returns the element at the first satisfying index. -/
theorem find?_eq_of_first {α : Type} (p : α → Bool) :
    ∀ (l : List α) (i : Nat) (hi : i < l.length),
      p l[i] = true →
      (∀ j, ∀ hj : j < i, p (l.get ⟨j, Nat.lt_trans hj hi⟩) = false) →
      l.find? p = some l[i] := by
  intro l
  induction l with
  | nil =>
    intro i hi
    simp at hi
  | cons a t ih =>
    intro i hi hp hprev
    cases i with
    | zero =>
      have hpa : p a = true := by simpa using hp
      rw [List.find?_cons_of_pos _ hpa]
      simp
    | succ k =>
      have ha : p a = false := by
        have h0 := hprev 0 (Nat.succ_pos k)
        simpa using h0
      rw [List.find?_cons_of_neg _ (by simp [ha])]
      have hk : k < t.length := Nat.lt_of_succ_lt_succ hi
      have hp2 : p t[k] = true := by simpa using hp
      have hprev2 : ∀ j, ∀ hj : j < k,
          p (t.get ⟨j, Nat.lt_trans hj hk⟩) = false := by
        intro j hj
        have hs := hprev (j + 1) (Nat.succ_lt_succ hj)
        simpa using hs
      have hres := ih k hk hp2 hprev2
      simpa using hres

/-- C5: the severity scan is first-match-wins over the ordered keyword
list (case-insensitive substring match on the uppercased line), with
default `INFO` when no keyword occurs; in particular a line containing
`ERROR` (and possibly `WARNING`) but no higher-precedence keyword
classifies as `ERROR`. -/
theorem classify_first_match_wins (line : List Char) :
    ((∀ lvl ∈ severityLevels, ¬ lvl <:+: line.map Char.toUpper) →
      classify_severity line = "INFO".toList) ∧
    (∀ i, ∀ hi : i < severityLevels.length,
      severityLevels[i] <:+: line.map Char.toUpper →
      (∀ j, ∀ hj : j < i,
        ¬ severityLevels.get ⟨j, Nat.lt_trans hj hi⟩ <:+:
          line.map Char.toUpper) →
      classify_severity line = severityLevels[i]) ∧
    ("ERROR".toList <:+: line.map Char.toUpper →
      ¬ "CRITICAL".toList <:+: line.map Char.toUpper →
      ¬ "FATAL".toList <:+: line.map Char.toUpper →
      classify_severity line = "ERROR".toList) := by
  have hpart2 : ∀ i, ∀ hi : i < severityLevels.length,
      severityLevels[i] <:+: line.map Char.toUpper →
      (∀ j, ∀ hj : j < i,
        ¬ severityLevels.get ⟨j, Nat.lt_trans hj hi⟩ <:+:
          line.map Char.toUpper) →
      classify_severity line = severityLevels[i] := by
    intro i hi hocc hprev
    have hf := find?_eq_of_first
      (fun lvl => occursIn lvl (line.map Char.toUpper)) severityLevels i hi
      (by rw [occursIn_iff]; exact hocc)
      (by
        intro j hj
        rw [Bool.eq_false_iff, ne_eq, occursIn_iff]
        exact hprev j hj)
    unfold classify_severity
    rw [hf]
  refine ⟨?_, hpart2, ?_⟩
  · intro h
    have hf : severityLevels.find?
        (fun lvl => occursIn lvl (line.map Char.toUpper)) = none := by
      rw [List.find?_eq_none]
      intro lvl hm
      rw [occursIn_iff]
      exact h lvl hm
    unfold classify_severity
    rw [hf]
  · intro hE hC hF
    have h2 := hpart2 2 (by decide) hE ?_
    · exact h2
    · intro j hj
      interval_cases j
      · exact hC
      · exact hF

/-- Closed witness for `classify_first_match_wins`. -/
theorem classify_first_match_wins_witness :
    classify_severity "mix ERROR then WARNING".toList = "ERROR".toList :=
  (classify_first_match_wins "mix ERROR then WARNING".toList).2.2
    (by decide) (by decide) (by decide)

end Agent
